import Mathlib

/-!
Verification of the UART bootloader
(`src/firmware/src/config/default/bootloader/bootloader.c`).

The C code is shallowly embedded: machine words are `Nat` with explicit
`% 2^32` where 32-bit overflow can occur, memories and buffers are
functions `Nat → Nat`, and each C task becomes a pure state-transformer
that also reports the externally observable events of one call (serial
response bytes written, systick queries/restarts, buffer stores).
External hardware (USART, NVM controller, DSU CRC unit, systick) is kept
at the interface: serial input is an `Option Nat` argument, the systick
"period expired" predicate is a `Bool` argument, the hardware CRC result
is a `Nat` argument, and `NVMCTRL_BankSwap` / `NVIC_SystemReset` are
terminal outcomes.
-/

/-- Little-endian 32-bit read of four consecutive bytes of a byte memory,
as done by the C code when it views a byte array through a `uint32_t`
pointer (the MCU is little-endian). -/
def leWordAt (m : Nat → Nat) (a : Nat) : Nat :=
  m a + 256 * m (a + 1) + 65536 * m (a + 2) + 16777216 * m (a + 3)

/-- Pointwise store into a byte memory (`byte_buf[i] = v`). -/
def setByte (m : Nat → Nat) (i v : Nat) : Nat → Nat :=
  fun j => if j = i then v else m j

/-- The `n` bytes of memory starting at address `a`. -/
def byteSeq (m : Nat → Nat) (a n : Nat) : List Nat :=
  (List.range n).map (fun i => m (a + i))

/-- The bytes of memory in the half-open address range `[a, b)`. -/
def byteRange (m : Nat → Nat) (a b : Nat) : List Nat :=
  byteSeq m a (b - a)

def crcTable : List Nat := [0x00000000, 0x77073096, 0xEE0E612C, 0x990951BA, 0x076DC419, 0x706AF48F, 0xE963A535, 0x9E6495A3
  , 0x0EDB8832, 0x79DCB8A4, 0xE0D5E91E, 0x97D2D988, 0x09B64C2B, 0x7EB17CBD, 0xE7B82D07, 0x90BF1D91
  , 0x1DB71064, 0x6AB020F2, 0xF3B97148, 0x84BE41DE, 0x1ADAD47D, 0x6DDDE4EB, 0xF4D4B551, 0x83D385C7
  , 0x136C9856, 0x646BA8C0, 0xFD62F97A, 0x8A65C9EC, 0x14015C4F, 0x63066CD9, 0xFA0F3D63, 0x8D080DF5
  , 0x3B6E20C8, 0x4C69105E, 0xD56041E4, 0xA2677172, 0x3C03E4D1, 0x4B04D447, 0xD20D85FD, 0xA50AB56B
  , 0x35B5A8FA, 0x42B2986C, 0xDBBBC9D6, 0xACBCF940, 0x32D86CE3, 0x45DF5C75, 0xDCD60DCF, 0xABD13D59
  , 0x26D930AC, 0x51DE003A, 0xC8D75180, 0xBFD06116, 0x21B4F4B5, 0x56B3C423, 0xCFBA9599, 0xB8BDA50F
  , 0x2802B89E, 0x5F058808, 0xC60CD9B2, 0xB10BE924, 0x2F6F7C87, 0x58684C11, 0xC1611DAB, 0xB6662D3D
  , 0x76DC4190, 0x01DB7106, 0x98D220BC, 0xEFD5102A, 0x71B18589, 0x06B6B51F, 0x9FBFE4A5, 0xE8B8D433
  , 0x7807C9A2, 0x0F00F934, 0x9609A88E, 0xE10E9818, 0x7F6A0DBB, 0x086D3D2D, 0x91646C97, 0xE6635C01
  , 0x6B6B51F4, 0x1C6C6162, 0x856530D8, 0xF262004E, 0x6C0695ED, 0x1B01A57B, 0x8208F4C1, 0xF50FC457
  , 0x65B0D9C6, 0x12B7E950, 0x8BBEB8EA, 0xFCB9887C, 0x62DD1DDF, 0x15DA2D49, 0x8CD37CF3, 0xFBD44C65
  , 0x4DB26158, 0x3AB551CE, 0xA3BC0074, 0xD4BB30E2, 0x4ADFA541, 0x3DD895D7, 0xA4D1C46D, 0xD3D6F4FB
  , 0x4369E96A, 0x346ED9FC, 0xAD678846, 0xDA60B8D0, 0x44042D73, 0x33031DE5, 0xAA0A4C5F, 0xDD0D7CC9
  , 0x5005713C, 0x270241AA, 0xBE0B1010, 0xC90C2086, 0x5768B525, 0x206F85B3, 0xB966D409, 0xCE61E49F
  , 0x5EDEF90E, 0x29D9C998, 0xB0D09822, 0xC7D7A8B4, 0x59B33D17, 0x2EB40D81, 0xB7BD5C3B, 0xC0BA6CAD
  , 0xEDB88320, 0x9ABFB3B6, 0x03B6E20C, 0x74B1D29A, 0xEAD54739, 0x9DD277AF, 0x04DB2615, 0x73DC1683
  , 0xE3630B12, 0x94643B84, 0x0D6D6A3E, 0x7A6A5AA8, 0xE40ECF0B, 0x9309FF9D, 0x0A00AE27, 0x7D079EB1
  , 0xF00F9344, 0x8708A3D2, 0x1E01F268, 0x6906C2FE, 0xF762575D, 0x806567CB, 0x196C3671, 0x6E6B06E7
  , 0xFED41B76, 0x89D32BE0, 0x10DA7A5A, 0x67DD4ACC, 0xF9B9DF6F, 0x8EBEEFF9, 0x17B7BE43, 0x60B08ED5
  , 0xD6D6A3E8, 0xA1D1937E, 0x38D8C2C4, 0x4FDFF252, 0xD1BB67F1, 0xA6BC5767, 0x3FB506DD, 0x48B2364B
  , 0xD80D2BDA, 0xAF0A1B4C, 0x36034AF6, 0x41047A60, 0xDF60EFC3, 0xA867DF55, 0x316E8EEF, 0x4669BE79
  , 0xCB61B38C, 0xBC66831A, 0x256FD2A0, 0x5268E236, 0xCC0C7795, 0xBB0B4703, 0x220216B9, 0x5505262F
  , 0xC5BA3BBE, 0xB2BD0B28, 0x2BB45A92, 0x5CB36A04, 0xC2D7FFA7, 0xB5D0CF31, 0x2CD99E8B, 0x5BDEAE1D
  , 0x9B64C2B0, 0xEC63F226, 0x756AA39C, 0x026D930A, 0x9C0906A9, 0xEB0E363F, 0x72076785, 0x05005713
  , 0x95BF4A82, 0xE2B87A14, 0x7BB12BAE, 0x0CB61B38, 0x92D28E9B, 0xE5D5BE0D, 0x7CDCEFB7, 0x0BDBDF21
  , 0x86D3D2D4, 0xF1D4E242, 0x68DDB3F8, 0x1FDA836E, 0x81BE16CD, 0xF6B9265B, 0x6FB077E1, 0x18B74777
  , 0x88085AE6, 0xFF0F6A70, 0x66063BCA, 0x11010B5C, 0x8F659EFF, 0xF862AE69, 0x616BFFD3, 0x166CCF45
  , 0xA00AE278, 0xD70DD2EE, 0x4E048354, 0x3903B3C2, 0xA7672661, 0xD06016F7, 0x4969474D, 0x3E6E77DB
  , 0xAED16A4A, 0xD9D65ADC, 0x40DF0B66, 0x37D83BF0, 0xA9BCAE53, 0xDEBB9EC5, 0x47B2CF7F, 0x30B5FFE9
  , 0xBDBDF21C, 0xCABAC28A, 0x53B39330, 0x24B4A3A6, 0xBAD03605, 0xCDD70693, 0x54DE5729, 0x23D967BF
  , 0xB3667A2E, 0xC4614AB8, 0x5D681B02, 0x2A6F2B94, 0xB40BBE37, 0xC30C8EA1, 0x5A05DF1B, 0x2D02EF8D
  ]

/-- One step of the table-driven CRC loop:
`crc32 = (crc32 >> 8) ^ crcTable[(crc32 ^ byteBuf[i]) & 0xFF];` -/
def crc32_step (crc byte : Nat) : Nat :=
  (crc >>> 8) ^^^ crcTable.getD ((crc ^^^ byte) &&& 0xFF) 0

/-- The software CRC32 routine `crc32(inCrc32, buf, bufLen)`: xor the
incoming accumulator with `0xFFFFFFFF`, run the table-driven loop over the
buffer bytes, and xor the result with `0xFFFFFFFF` again. -/
def crc32 (inCrc32 : Nat) (buf : List Nat) : Nat :=
  (buf.foldl crc32_step (inCrc32 ^^^ 0xFFFFFFFF)) ^^^ 0xFFFFFFFF

theorem xor_ffffffff_xor_ffffffff (n : Nat) :
    n ^^^ 0xFFFFFFFF ^^^ 0xFFFFFFFF = n := by
  rw [Nat.xor_assoc, Nat.xor_self, Nat.xor_zero]

/-- Chaining the software CRC32 across two buffers with the same
accumulator is the same as running it once over their concatenation. -/
theorem crc32_append_eq (c : Nat) (a b : List Nat) :
    crc32 (crc32 c a) b = crc32 c (a ++ b) := by
  unfold crc32
  rw [xor_ffffffff_xor_ffffffff, List.foldl_append]

/-!
## Bootloader state

One record collects the C file's globals together with `input_task`'s
function-local `static` variables (`ptr`, `size`, `header_received`).
`buf` is the byte overlay `(uint8_t *)&input_buffer[0]` of the word
array `input_buffer[WORDS(OFFSET_SIZE + DATA_SIZE)]` (8196 bytes, word
`i` at byte offset `4*i`); `flashData` is the word array
`flash_data[WORDS(DATA_SIZE)]` (2048 words).
-/

structure BLState where
  ptr : Nat
  size : Nat
  headerReceived : Bool
  buf : Nat → Nat
  inputCommand : Nat
  packetReceived : Bool
  unlockBegin : Nat
  unlockEnd : Nat
  flashAddr : Nat
  flashData : Nat → Nat
  flashDataReady : Bool

/-- Reset state of the bootloader: all globals and statics zero-initialized. -/
def initState : BLState :=
  { ptr := 0, size := 0, headerReceived := false, buf := fun _ => 0,
    inputCommand := 0, packetReceived := false, unlockBegin := 0,
    unlockEnd := 0, flashAddr := 0, flashData := fun _ => 0,
    flashDataReady := false }

/-- Result of one call to `input_task`: the successor state plus the
observable events of the call. `resp` lists the bytes passed to
`SERCOM0_USART_WriteByte`, `tickQueried` / `tickRestarted` record whether
`SYSTICK_TimerPeriodHasExpired` / `SYSTICK_TimerRestart` were invoked,
`writeIdx` is the buffer index stored to (if any), and `latched` is the
payload size latched from a completed well-formed header (if any). -/
structure RxStep where
  state : BLState
  resp : List Nat
  tickQueried : Bool
  tickRestarted : Bool
  writeIdx : Option Nat
  latched : Option Nat

/-- One call to `input_task`. `avail` is the serial input: `none` when
`SERCOM0_USART_ReceiverIsReady()` is false, `some b` when a byte `b` is
pending; `timeout` is the value `SYSTICK_TimerPeriodHasExpired()` would
return at this call. The function mirrors the C control flow: early
return when a packet is already buffered or no byte is pending (before
the systick is touched), then the two-state header/payload machine. -/
def input_task (s : BLState) (avail : Option Nat) (timeout : Bool) : RxStep :=
  if s.packetReceived then
    ⟨s, [], false, false, none, none⟩
  else
    match avail with
    | none => ⟨s, [], false, false, none, none⟩
    | some b =>
      let data := b % 256
      let s := if timeout then { s with headerReceived := false } else s
      if s.headerReceived = false then
        let buf := setByte s.buf s.ptr data
        let p := s.ptr + 1
        if p = 9 then
          if leWordAt buf 0 ≠ 0x5048434D then
            ⟨{ s with buf := buf, ptr := 0 }, [0x51], true, true, some s.ptr, none⟩
          else
            ⟨{ s with
                 buf := buf
                 ptr := 0
                 size := leWordAt buf 4
                 inputCommand := leWordAt buf 8 % 256
                 headerReceived := true },
             [], true, true, some s.ptr, some (leWordAt buf 4)⟩
        else
          ⟨{ s with buf := buf, ptr := p }, [], true, true, some s.ptr, none⟩
      else
        let wrote := s.ptr < s.size
        let buf := if wrote then setByte s.buf s.ptr data else s.buf
        let p := if wrote then s.ptr + 1 else s.ptr
        let wi : Option Nat := if wrote then some s.ptr else none
        if p = s.size then
          ⟨{ s with
               buf := buf
               ptr := 0
               size := 0
               packetReceived := true
               headerReceived := false }, [], true, true, wi, none⟩
        else
          ⟨{ s with buf := buf, ptr := p }, [], true, true, wi, none⟩

/-- Result of one call to `command_task`: successor state, the bytes
written to the serial port, and whether the call ended in a device reset
(`NVMCTRL_BankSwap` after a BKSWAP_RESET, or `NVIC_SystemReset` after a
RESET; both reset the MCU before `command_task` would return). -/
structure CmdStep where
  state : BLState
  resp : List Nat
  halted : Bool

/-- `OFFSET_ALIGN_MASK = (~ERASE_BLOCK_SIZE + 1)` as a 32-bit value. -/
def OFFSET_ALIGN_MASK : Nat := 0xFFFFE000

/-- `SIZE_ALIGN_MASK = (~PAGE_SIZE + 1)` as a 32-bit value. -/
def SIZE_ALIGN_MASK : Nat := 0xFFFFFE00

/-- One call to `command_task`, processing the buffered packet according
to `input_command`. `hwCrc` is the value the hardware CRC unit
(`crc_generate`, i.e. `DSU_CRCCalculate` over the unlock window with
seed `0xffffffff`) would return for the current unlock window. -/
def command_task (s : BLState) (hwCrc : Nat) : CmdStep :=
  if s.inputCommand = 0xa0 then
    -- UNLOCK: begin = input_buffer[ADDR_OFFSET] & OFFSET_ALIGN_MASK,
    -- end = begin + (input_buffer[SIZE_OFFSET] & SIZE_ALIGN_MASK), in uint32.
    let bg := leWordAt s.buf 0 &&& OFFSET_ALIGN_MASK
    let en := (bg + (leWordAt s.buf 4 &&& SIZE_ALIGN_MASK)) % 4294967296
    if en > bg ∧ en ≤ 1048576 then
      ⟨{ s with unlockBegin := bg, unlockEnd := en, packetReceived := false },
       [0x50], false⟩
    else
      ⟨{ s with unlockBegin := 0, unlockEnd := 0, packetReceived := false },
       [0x51], false⟩
  else if s.inputCommand = 0xa1 then
    -- DATA: flash_addr is latched before the window check.
    let fa := leWordAt s.buf 0 &&& OFFSET_ALIGN_MASK
    if s.unlockBegin ≤ fa ∧ fa < s.unlockEnd then
      ⟨{ s with
           flashAddr := fa
           flashData := fun i => if i < 2048 then leWordAt s.buf (4 * (i + 1))
                                 else s.flashData i
           flashDataReady := true
           packetReceived := false }, [0x50], false⟩
    else
      ⟨{ s with flashAddr := fa, packetReceived := false }, [0x51], false⟩
  else if s.inputCommand = 0xa2 then
    -- VERIFY: compare input_buffer[CRC_OFFSET] against the hardware CRC.
    if leWordAt s.buf 0 = hwCrc then
      ⟨{ s with packetReceived := false }, [0x53], false⟩
    else
      ⟨{ s with packetReceived := false }, [0x54], false⟩
  else if s.inputCommand = 0xa4 then
    -- BKSWAP_RESET: respond OK, drain TX, then NVMCTRL_BankSwap (resets).
    ⟨s, [0x50], true⟩
  else if s.inputCommand = 0xa3 then
    -- RESET: respond OK, drain TX, then NVIC_SystemReset.
    ⟨s, [0x50], true⟩
  else
    ⟨{ s with packetReceived := false }, [0x52], false⟩

/-!
## Boot decider and image header scanner

Flash is modelled as a byte memory `Nat → Nat`. `APP_START_ADDRESS` is
`0x2000`, `ERASE_BLOCK_SIZE` is `8192`, so the scanner's word pointers run
from `APP_START_ADDRESS` with `end = start + ERASE_BLOCK_SIZE/4` words.
-/

/-- Outcome of `run_Application`: either control is handed to the image
(after `__set_MSP(msp)` and a branch to the reset vector), or the device
resets through `NVMCTRL_BankSwap`, or the function returns and the
bootloader main loop is entered. -/
inductive BootOutcome where
  | launch (msp resetVector : Nat)
  | bankSwap
  | enterBootloader
deriving DecidableEq

/-- `find_binary_header`: scan 32-bit-aligned words starting at
`APP_START_ADDRESS` for the pair `SIGNATURE1, SIGNATURE2` and return the
address of the first match, `none` for C's `NULL`. The C loop condition
is `(start-1) < end` with `end = start + ERASE_BLOCK_SIZE/sizeof(uint32_t)`,
which (for word-aligned pointers) is `start ≤ end`, so the body runs for
word indices `0, 1, ..., 2048` inclusive. -/
def find_binary_header (flash : Nat → Nat) : Option Nat :=
  ((List.range 2049).find? fun k =>
      (leWordAt flash (8192 + 4 * k) == 0xAA55FADE) &&
      (leWordAt flash (8192 + 4 * k + 4) == 0x55AAC0DE)).map
    (fun k => 8192 + 4 * k)

/-- The scanner that §4.5 of the spec describes, for comparison with the
code's `find_binary_header`: it examines only the words from
`APP_START_ADDRESS` up to and including `APP_START_ADDRESS +
ERASE_BLOCK_SIZE − 4`, i.e. word indices `0, 1, ..., 2047`. -/
def specFindDescriptor (flash : Nat → Nat) : Option Nat :=
  ((List.range 2048).find? fun k =>
      (leWordAt flash (8192 + 4 * k) == 0xAA55FADE) &&
      (leWordAt flash (8192 + 4 * k + 4) == 0x55AAC0DE)).map
    (fun k => 8192 + 4 * k)

/-- `run_Application`. `afirst` is the `NVMCTRL_STATUS_AFIRST` bit of
`NVMCTRL_StatusGet()`. The checksum is the code's two-segment software
CRC: over `[APP_START_ADDRESS, hdr)` and then, without resetting the
accumulator, over `sizeof(struct binary_header) = 16` bytes past the
descriptor for `(uint8_t*)(APP_START_ADDRESS + bin_size) - (uint8_t*)(hdr + 16)`
bytes — a 32-bit pointer difference, hence the `% 2^32`. `NVMCTRL_BankSwap`
resets the device, so a mismatch on bank A never reaches `__set_MSP`. -/
def run_Application (flash : Nat → Nat) (afirst : Bool) : BootOutcome :=
  let msp := leWordAt flash 8192
  let resetVector := leWordAt flash 8196
  if msp = 0xFFFFFFFF then .enterBootloader
  else
    match find_binary_header flash with
    | none => .enterBootloader
    | some hdr =>
      let binSize := leWordAt flash (hdr + 8)
      let stored := leWordAt flash (hdr + 12)
      let len2 := (8192 + binSize + 4294967296 - (hdr + 16)) % 4294967296
      let checksum := crc32 (crc32 0 (byteRange flash 8192 hdr))
                            (byteSeq flash (hdr + 16) len2)
      if checksum ≠ stored then
        if afirst then .bankSwap else .enterBootloader
      else .launch msp resetVector

/-!
## Main-loop driver

`bootloader_Tasks` alternates `input_task` with `flash_task` /
`command_task`. For reasoning about the byte stream we drive the loop
one serial byte at a time: the NVM controller is modelled as never busy
(so `flash_task`'s busy-wait calls of `input_task` consume nothing and
`flash_task` only clears `flash_data_ready`, which the receiver ignores),
and a buffered packet is processed by `command_task` before the next byte
arrives, exactly as in the loop. After a RESET / BKSWAP_RESET command the
device has reset, so the rest of the stream is not consumed. -/

structure SysState where
  bl : BLState
  halted : Bool

/-- Reset state of the whole system. -/
def initSys : SysState := ⟨initState, false⟩

/-- Feed one serial byte (with the systick-expired flag observed at that
call) through the main loop: `input_task`, then `command_task` if this
byte completed a packet. Returns the successor system state, the buffer
index the receiver stored to (if any), and the payload size latched from
a completed header (if any). -/
def driveByte (st : SysState) (b : Nat) (t : Bool) : SysState × Option Nat × Option Nat :=
  if st.halted then (st, none, none)
  else
    let r := input_task st.bl (some b) t
    if r.state.packetReceived then
      let c := command_task r.state 0
      (⟨c.state, c.halted⟩, r.writeIdx, r.latched)
    else
      (⟨r.state, false⟩, r.writeIdx, r.latched)

/-- Run the main loop over a list of (serial byte, systick-expired) pairs,
collecting the final state, the list of buffer indices written by the
receiver, and the list of payload sizes latched from completed headers. -/
def runBytes (st : SysState) : List (Nat × Bool) → SysState × List Nat × List Nat
  | [] => (st, [], [])
  | (b, t) :: rest =>
    let step := driveByte st b t
    let tail := runBytes step.1 rest
    (tail.1, step.2.1.toList ++ tail.2.1, step.2.2.toList ++ tail.2.2)

/-- A byte stream paired with a quiescent systick (the 100 ms inter-byte
period never expires during the run). -/
def noTimeout (bytes : List Nat) : List (Nat × Bool) :=
  bytes.map (fun b => (b, false))

/-!
## Helper lemmas
-/

/-- A receiver call that consumes a byte while the systick period has
expired behaves exactly like a call on the state with `header_received`
forced to `false` and no expiry: only `header_received` is touched by the
timeout test before the byte is processed. -/
lemma input_task_timeout_eq (s : BLState) (b : Nat)
    (h : s.packetReceived = false) :
    input_task s (some b) true =
      input_task { s with headerReceived := false } (some b) false := by
  simp [input_task, h]

/-!
## Claim C2 — UNLOCK command
-/

/-- Claim C2: after processing an UNLOCK command exactly one of two
outcomes holds: either the aligned `begin = addr & ~(ERASE_BLOCK−1)` and
`end = begin + (size & ~(PAGE−1))` satisfy `begin < end` and
`end ≤ FLASH_START + FLASH_LENGTH`, the unlock window becomes
`[begin, end)` and the response is OK; or the window is cleared to
`[0, 0)` and the response is ERROR. -/
theorem unlock_window_ok_or_cleared (s : BLState) (hw : Nat)
    (h : s.inputCommand = 0xa0) :
    ((leWordAt s.buf 0 &&& OFFSET_ALIGN_MASK) <
        (leWordAt s.buf 0 &&& OFFSET_ALIGN_MASK) +
          (leWordAt s.buf 4 &&& SIZE_ALIGN_MASK) ∧
      (leWordAt s.buf 0 &&& OFFSET_ALIGN_MASK) +
          (leWordAt s.buf 4 &&& SIZE_ALIGN_MASK) ≤ 1048576 ∧
      (command_task s hw).state.unlockBegin =
        (leWordAt s.buf 0 &&& OFFSET_ALIGN_MASK) ∧
      (command_task s hw).state.unlockEnd =
        (leWordAt s.buf 0 &&& OFFSET_ALIGN_MASK) +
          (leWordAt s.buf 4 &&& SIZE_ALIGN_MASK) ∧
      (command_task s hw).resp = [0x50])
    ∨ ((command_task s hw).state.unlockBegin = 0 ∧
       (command_task s hw).state.unlockEnd = 0 ∧
       (command_task s hw).resp = [0x51]) := by
  have hbg : (leWordAt s.buf 0 &&& OFFSET_ALIGN_MASK) ≤ 0xFFFFE000 := by
    unfold OFFSET_ALIGN_MASK; exact Nat.and_le_right
  have hsz : (leWordAt s.buf 4 &&& SIZE_ALIGN_MASK) ≤ 0xFFFFFE00 := by
    unfold SIZE_ALIGN_MASK; exact Nat.and_le_right
  simp only [command_task, h, if_pos rfl, reduceIte]
  split_ifs with hc
  · left
    have hov : ((leWordAt s.buf 0 &&& OFFSET_ALIGN_MASK) +
        (leWordAt s.buf 4 &&& SIZE_ALIGN_MASK)) % 4294967296 =
        (leWordAt s.buf 0 &&& OFFSET_ALIGN_MASK) +
        (leWordAt s.buf 4 &&& SIZE_ALIGN_MASK) := by omega
    refine ⟨by omega, by omega, rfl, hov, rfl⟩
  · right
    exact ⟨rfl, rfl, rfl⟩

/-- An UNLOCK packet for `addr = 0x2000`, `size = 0x2000` (scenario 2 of
§8 of the spec): word 0 of the payload is `0x2000`, word 1 is `0x2000`. -/
def c2state : BLState :=
  { initState with
      inputCommand := 0xa0
      buf := fun i => if i = 1 then 0x20 else if i = 5 then 0x20 else 0 }

/-- Witness for C2: on a concrete in-range UNLOCK the success disjunct
holds — the window becomes `[0x2000, 0x4000)` with response OK. -/
theorem unlock_window_ok_or_cleared_witness :
    (leWordAt c2state.buf 0 &&& OFFSET_ALIGN_MASK) <
      (leWordAt c2state.buf 0 &&& OFFSET_ALIGN_MASK) +
        (leWordAt c2state.buf 4 &&& SIZE_ALIGN_MASK) ∧
    (leWordAt c2state.buf 0 &&& OFFSET_ALIGN_MASK) +
        (leWordAt c2state.buf 4 &&& SIZE_ALIGN_MASK) ≤ 1048576 ∧
    (command_task c2state 0).state.unlockBegin =
      (leWordAt c2state.buf 0 &&& OFFSET_ALIGN_MASK) ∧
    (command_task c2state 0).state.unlockEnd =
      (leWordAt c2state.buf 0 &&& OFFSET_ALIGN_MASK) +
        (leWordAt c2state.buf 4 &&& SIZE_ALIGN_MASK) ∧
    (command_task c2state 0).resp = [0x50] :=
  (unlock_window_ok_or_cleared c2state 0 rfl).resolve_right (by decide)

/-!
## Claim C3 — DATA command
-/

/-- Claim C3: for a DATA command the response is OK iff the erase-block
aligned address lies in the unlock window; the staging buffer is written
and the data-ready flag set iff the response is OK; otherwise nothing is
staged and the response is ERROR. In particular, with the initial empty
window `[0, 0)` every DATA command is answered ERROR. -/
theorem data_ok_iff_in_window (s : BLState) (hw : Nat)
    (h : s.inputCommand = 0xa1) :
    ((command_task s hw).resp = [0x50] ↔
      (s.unlockBegin ≤ (leWordAt s.buf 0 &&& OFFSET_ALIGN_MASK) ∧
       (leWordAt s.buf 0 &&& OFFSET_ALIGN_MASK) < s.unlockEnd)) ∧
    ((command_task s hw).resp = [0x50] →
      (command_task s hw).state.flashDataReady = true ∧
      ∀ i, i < 2048 →
        (command_task s hw).state.flashData i = leWordAt s.buf (4 * (i + 1))) ∧
    ((command_task s hw).resp ≠ [0x50] →
      (command_task s hw).resp = [0x51] ∧
      (command_task s hw).state.flashData = s.flashData ∧
      (command_task s hw).state.flashDataReady = s.flashDataReady) ∧
    (s.unlockBegin = 0 → s.unlockEnd = 0 → (command_task s hw).resp = [0x51]) := by
  simp only [command_task, h]
  norm_num
  split_ifs with hin
  · refine ⟨by simp [hin], ?_, ?_, ?_⟩
    · intro _
      exact ⟨rfl, fun i hi => by simp [hi]⟩
    · intro hne
      exact absurd rfl hne
    · intro h0 h1
      omega
  · refine ⟨by simp [hin], ?_, ?_, ?_⟩
    · intro hco
      exact absurd hco (by simp)
    · intro _
      exact ⟨rfl, rfl, rfl⟩
    · intro _ _
      rfl

/-- A DATA packet for address `0x2000` arriving while the unlock window
is `[0x2000, 0x4000)`. -/
def c3state : BLState :=
  { initState with
      inputCommand := 0xa1
      unlockBegin := 0x2000
      unlockEnd := 0x4000
      buf := fun i => if i = 1 then 0x20 else 0 }

/-- Witness for C3: the concrete in-window DATA command is answered OK,
sets the data-ready flag and stages word 0 of the payload. -/
theorem data_ok_iff_in_window_witness :
    ((command_task c3state 0).resp = [0x50] ↔
      (c3state.unlockBegin ≤ (leWordAt c3state.buf 0 &&& OFFSET_ALIGN_MASK) ∧
       (leWordAt c3state.buf 0 &&& OFFSET_ALIGN_MASK) < c3state.unlockEnd)) ∧
    (command_task c3state 0).state.flashDataReady = true ∧
    (command_task c3state 0).state.flashData 0 = leWordAt c3state.buf 4 :=
  ⟨(data_ok_iff_in_window c3state 0 rfl).1,
   ((data_ok_iff_in_window c3state 0 rfl).2.1 (by decide)).1,
   ((data_ok_iff_in_window c3state 0 rfl).2.1 (by decide)).2 0 (by decide)⟩

/-!
## Claim C8 — DATA outside the window (corrected)
-/

/-- A DATA packet for aligned address `0x4000` arriving while the unlock
window is still the initial `[0, 0)` and `flash_addr` is still `0`. -/
def c8state : BLState :=
  { initState with
      inputCommand := 0xa1
      buf := fun i => if i = 1 then 0x40 else 0 }

/-- Counterexample to C8 as stated: a DATA command outside the window is
answered ERROR, yet `flash_addr` is NOT left unchanged — the code latches
`flash_addr = input_buffer[ADDR_OFFSET] & OFFSET_ALIGN_MASK` before the
window check, so it changes from `0` to `0x4000` on the error path. -/
theorem data_error_latches_flash_addr :
    (command_task c8state 0).resp = [0x51] ∧
    c8state.flashAddr = 0 ∧
    (command_task c8state 0).state.flashAddr = 0x4000 := by decide

/-- Claim C8 as amended: for a DATA command whose aligned address lies
outside the unlock window the response is ERROR, the staging buffer is
not written, the data-ready flag and the unlock window are unchanged, no
flash operation is armed (`halted = false`, data-ready untouched) and the
pending-packet flag is cleared — but the latched flash target address IS
updated to the aligned address. -/
theorem data_outside_window_effects (s : BLState) (hw : Nat)
    (h : s.inputCommand = 0xa1)
    (hout : ¬(s.unlockBegin ≤ (leWordAt s.buf 0 &&& OFFSET_ALIGN_MASK) ∧
              (leWordAt s.buf 0 &&& OFFSET_ALIGN_MASK) < s.unlockEnd)) :
    (command_task s hw).resp = [0x51] ∧
    (command_task s hw).state.flashData = s.flashData ∧
    (command_task s hw).state.flashDataReady = s.flashDataReady ∧
    (command_task s hw).state.unlockBegin = s.unlockBegin ∧
    (command_task s hw).state.unlockEnd = s.unlockEnd ∧
    (command_task s hw).state.flashAddr =
      (leWordAt s.buf 0 &&& OFFSET_ALIGN_MASK) ∧
    (command_task s hw).state.packetReceived = false ∧
    (command_task s hw).halted = false := by
  simp only [command_task, h]
  norm_num
  rw [if_neg hout]
  exact ⟨rfl, rfl, rfl, rfl, rfl, rfl, rfl, rfl⟩

/-- Witness for the amended C8 at the concrete out-of-window DATA
command. -/
theorem data_outside_window_effects_witness :
    (command_task c8state 0).resp = [0x51] ∧
    (command_task c8state 0).state.flashData = c8state.flashData ∧
    (command_task c8state 0).state.flashDataReady = c8state.flashDataReady ∧
    (command_task c8state 0).state.unlockBegin = c8state.unlockBegin ∧
    (command_task c8state 0).state.unlockEnd = c8state.unlockEnd ∧
    (command_task c8state 0).state.flashAddr =
      (leWordAt c8state.buf 0 &&& OFFSET_ALIGN_MASK) ∧
    (command_task c8state 0).state.packetReceived = false ∧
    (command_task c8state 0).halted = false :=
  data_outside_window_effects c8state 0 rfl (by decide)

/-!
## Claim C7 — systick on every receiver call (corrected)
-/

/-- A state in which a complete packet is still pending. -/
def c7state : BLState := { initState with packetReceived := true }

/-- Counterexample to C7 as stated: on a call made while pending-packet
is set, and on a call with no serial byte available, the systick is
neither queried nor restarted — the early returns come before the systick
code. -/
theorem tick_skipped_on_early_returns :
    ((input_task c7state (some 5) false).tickQueried = false ∧
     (input_task c7state (some 5) false).tickRestarted = false) ∧
    ((input_task initState none false).tickQueried = false ∧
     (input_task initState none false).tickRestarted = false) := by decide

/-- Claim C7 as amended: the systick period-expired predicate is queried,
and the tick restarted, exactly on those `input_task` calls that consume
a byte — pending-packet clear and a serial byte available. Calls that
return early touch the tick not at all. -/
theorem tick_touched_iff_byte_consumed (s : BLState) (avail : Option Nat)
    (t : Bool) :
    (input_task s avail t).tickQueried = (!s.packetReceived && avail.isSome) ∧
    (input_task s avail t).tickRestarted = (!s.packetReceived && avail.isSome) := by
  cases hp : s.packetReceived <;> cases avail <;>
      simp [input_task, hp]
  all_goals split_ifs <;> simp

/-!
## Claim C6 — inter-byte timeout handling (corrected)
-/

/-- A receiver state three bytes into a 100-byte payload when the 100 ms
inter-byte period expires. -/
def c6state : BLState :=
  { initState with headerReceived := true, ptr := 3, size := 100 }

/-- Counterexample to C6 as stated: on a timeout the byte is NOT appended
at buffer position 0 — only `header_received` is forced back to `false`,
while `ptr` keeps its old value, so the byte lands at the stale position
3 and the write position advances to 4. -/
theorem timeout_appends_at_current_position :
    (input_task c6state (some 7) true).writeIdx = some 3 ∧
    (input_task c6state (some 7) true).writeIdx ≠ some 0 ∧
    (input_task c6state (some 7) true).state.buf 3 = 7 ∧
    (input_task c6state (some 7) true).state.buf 0 = 0 ∧
    (input_task c6state (some 7) true).state.ptr = 4 ∧
    (input_task c6state (some 7) true).state.headerReceived = false := by decide

/-- Claim C6 as amended: when the period-expired predicate returns true
on a byte-consuming call, the state machine is forced back to the
header-collecting state before the byte is appended, but the buffer write
position is NOT reset: the byte is appended at the current position
`ptr`, not at position 0. -/
theorem timeout_forces_header_state_keeps_ptr (s : BLState) (b : Nat)
    (h : s.packetReceived = false) :
    input_task s (some b) true =
      input_task { s with headerReceived := false } (some b) false ∧
    (input_task s (some b) true).writeIdx = some s.ptr := by
  constructor
  · exact input_task_timeout_eq s b h
  · simp [input_task, h]
    split_ifs <;> rfl

/-- Witness for the amended C6 at the concrete mid-payload state. -/
theorem timeout_forces_header_state_keeps_ptr_witness :
    (input_task c6state (some 7) true =
      input_task { c6state with headerReceived := false } (some 7) false) ∧
    (input_task c6state (some 7) true).writeIdx = some c6state.ptr :=
  timeout_forces_header_state_keeps_ptr c6state 7 rfl

/-!
## Claim C4 — exactly one response byte per packet
-/

/-- Claim C4: per received packet exactly one response byte is emitted.
Component facts over all states: (1) a receiver call emits at most one
byte; (2) a byte-consuming receiver call emits exactly `[ERROR]` when it
completes a 9-byte header whose guard word mismatches, and nothing
otherwise — so each bad header yields exactly one ERROR byte and packet
completion itself emits nothing; (3) early-return receiver calls emit
nothing; (4) processing a completed packet emits exactly one byte, drawn
from {OK, ERROR, INVALID, CRC_OK, CRC_FAIL}. -/
theorem one_response_per_packet :
    (∀ (s : BLState) (avail : Option Nat) (t : Bool),
        (input_task s avail t).resp.length ≤ 1) ∧
    (∀ (s : BLState) (b : Nat) (t : Bool), s.packetReceived = false →
        (input_task s (some b) t).resp =
          (if (if t then false else s.headerReceived) = false ∧ s.ptr + 1 = 9 ∧
              leWordAt (setByte s.buf s.ptr (b % 256)) 0 ≠ 0x5048434D
           then [0x51] else [])) ∧
    (∀ (s : BLState) (avail : Option Nat) (t : Bool),
        s.packetReceived = true ∨ avail = none → (input_task s avail t).resp = []) ∧
    (∀ (s : BLState) (hw : Nat),
        (command_task s hw).resp.length = 1 ∧
        ∀ r ∈ (command_task s hw).resp, r ∈ [0x50, 0x51, 0x52, 0x53, 0x54]) := by
  refine ⟨?_, ?_, ?_, ?_⟩
  · intro s avail t
    cases hp : s.packetReceived <;> cases avail <;>
        simp [input_task, hp]
    all_goals split_ifs <;> simp
  · intro s b t h
    cases t
    · cases hh : s.headerReceived <;>
        · simp only [input_task, h, hh, Bool.false_eq_true, if_false, reduceIte]
          split_ifs <;> first | rfl | tauto
    · rw [input_task_timeout_eq s b h]
      simp only [input_task, h, reduceIte]
      split_ifs <;> first | rfl | tauto
  · intro s avail t h
    rcases h with h | h
    · simp [input_task, h]
    · subst h
      cases hp : s.packetReceived <;> simp [input_task, hp]
  · intro s hw
    simp only [command_task]
    split_ifs <;> simp

/-- A state in which a complete packet is pending, used to witness the
early-return component of C4. -/
def c4pending : BLState := { initState with packetReceived := true }

/-- Witness for C4, instantiating each component at concrete inputs:
a byte consumed from reset emits at most one byte and exactly what the
header-completion characterization says; a call with a pending packet
emits nothing; processing a packet emits exactly one byte. -/
theorem one_response_per_packet_witness :
    (input_task initState (some 0) false).resp.length ≤ 1 ∧
    (input_task initState (some 0) false).resp =
      (if (if false then false else initState.headerReceived) = false ∧
          initState.ptr + 1 = 9 ∧
          leWordAt (setByte initState.buf initState.ptr (0 % 256)) 0 ≠ 0x5048434D
       then [0x51] else []) ∧
    (input_task c4pending (some 1) false).resp = [] ∧
    (command_task initState 0).resp.length = 1 :=
  ⟨one_response_per_packet.1 initState (some 0) false,
   one_response_per_packet.2.1 initState 0 false rfl,
   one_response_per_packet.2.2.1 c4pending (some 1) false (Or.inl rfl),
   (one_response_per_packet.2.2.2 initState 0).1⟩

/-!
## Claim C5 — header scanner bound (code bug)
-/

/-- A flash image whose only signature pair sits at word index 2048, i.e.
at address `APP_START_ADDRESS + ERASE_BLOCK_SIZE = 0x4000`, one word past
the range `[APP_START_ADDRESS, APP_START_ADDRESS + ERASE_BLOCK_SIZE − 4]`
that §4.5 of the spec assigns to the scanner. -/
def c5flash : Nat → Nat := fun a =>
  if a = 16384 then 0xDE else if a = 16385 then 0xFA else if a = 16386 then 0x55
  else if a = 16387 then 0xAA else if a = 16388 then 0xDE else if a = 16389 then 0xC0
  else if a = 16390 then 0xAA else if a = 16391 then 0x55 else 0

set_option maxRecDepth 100000 in
/-- Claim C5, evaluated at the failing input: the loop bound
`(start-1) < end` lets `find_binary_header` examine the word at
`APP_START_ADDRESS + ERASE_BLOCK_SIZE` (index 2048) and read its
follower, so on `c5flash` it returns `0x4000` — while the scanner the
spec describes (range up to and including
`APP_START_ADDRESS + ERASE_BLOCK_SIZE − 4`) finds nothing. -/
theorem scanner_reads_one_word_past_range :
    find_binary_header c5flash = some 16384 ∧
    specFindDescriptor c5flash = none := by decide

/-!
## Claim C9 — CRC accumulation across segments
-/

/-- Claim C9: the software `crc32` accumulates across segments — for all
byte sequences `a`, `b` and every accumulator `c`,
`crc32 (crc32 c a) b = crc32 c (a ++ b)`; hence the Boot Decider's
two-segment computation (first over `[APP_START_ADDRESS, hdr)`, then,
without resetting the accumulator, over the code's 32-bit length
`(APP_START_ADDRESS + bin_size) - (hdr + 16)`) equals the CRC32 — seed
`0xFFFFFFFF`, final xor `0xFFFFFFFF`, i.e. `crc32 0` — of the image
bytes with the 16 descriptor bytes removed. -/
theorem crc32_accumulates_across_segments :
    (∀ (c : Nat) (a b : List Nat), crc32 (crc32 c a) b = crc32 c (a ++ b)) ∧
    (∀ (flash : Nat → Nat) (hdr : Nat),
        8192 ≤ hdr →
        leWordAt flash (hdr + 8) < 4294967296 →
        hdr + 16 ≤ 8192 + leWordAt flash (hdr + 8) →
        crc32 (crc32 0 (byteRange flash 8192 hdr))
            (byteSeq flash (hdr + 16)
              ((8192 + leWordAt flash (hdr + 8) + 4294967296 - (hdr + 16)) %
                4294967296)) =
          crc32 0 (byteRange flash 8192 hdr ++
            byteRange flash (hdr + 16) (8192 + leWordAt flash (hdr + 8)))) := by
  refine ⟨crc32_append_eq, ?_⟩
  intro flash hdr hlo hbin hsane
  have hlen : (8192 + leWordAt flash (hdr + 8) + 4294967296 - (hdr + 16)) %
      4294967296 = (8192 + leWordAt flash (hdr + 8)) - (hdr + 16) := by omega
  rw [hlen, crc32_append_eq]
  rfl

/-- A flash image with descriptor at `APP_START_ADDRESS` itself declaring
`bin_size = 20`. -/
def c9flash : Nat → Nat := fun a => if a = 8200 then 20 else 0

/-- Witness for C9: the accumulation law applied at concrete lists, and
the two-segment/one-list equality applied at a concrete flash image. -/
theorem crc32_accumulates_across_segments_witness :
    crc32 (crc32 5 [1, 2]) [3, 4] = crc32 5 [1, 2, 3, 4] ∧
    crc32 (crc32 0 (byteRange c9flash 8192 8192))
        (byteSeq c9flash (8192 + 16)
          ((8192 + leWordAt c9flash (8192 + 8) + 4294967296 - (8192 + 16)) %
            4294967296)) =
      crc32 0 (byteRange c9flash 8192 8192 ++
        byteRange c9flash (8192 + 16) (8192 + leWordAt c9flash (8192 + 8))) :=
  ⟨crc32_accumulates_across_segments.1 5 [1, 2] [3, 4],
   crc32_accumulates_across_segments.2 c9flash 8192 (by decide) (by decide)
     (by decide)⟩

/-!
## Claim C1 — boot decision on a found descriptor
-/

/-- Any address `find_binary_header` returns lies between
`APP_START_ADDRESS` and `APP_START_ADDRESS + ERASE_BLOCK_SIZE`. -/
lemma find_binary_header_bounds (flash : Nat → Nat) (hdr : Nat)
    (h : find_binary_header flash = some hdr) :
    8192 ≤ hdr ∧ hdr ≤ 16384 := by
  unfold find_binary_header at h
  rcases Option.map_eq_some'.mp h with ⟨k, hk, rfl⟩
  have hmem := List.mem_range.mp (List.mem_of_find?_eq_some hk)
  omega

/-- Claim C1: at reset, for an installed image (`msp ≠ 0xFFFFFFFF`) with
a found descriptor: if the CRC32 over the image bytes excluding the 16
descriptor bytes equals the stored `crc32`, `run_Application` loads the
MSP from word 0 of `APP_START_ADDRESS` and the reset vector from word 1
and branches (never returning); if the CRCs differ and the NVM A-first
bit is set, a bank swap is issued (a device reset, so the corrupt image
is not launched); if they differ and the A-first bit is clear,
`run_Application` returns to the bootloader loop. (`hbin`/`hsane` say the
declared `bin_size` is a 32-bit value that covers the descriptor, as for
any installed image.) -/
theorem boot_decision (flash : Nat → Nat) (afirst : Bool) (hdr : Nat)
    (hmsp : leWordAt flash 8192 ≠ 0xFFFFFFFF)
    (hfind : find_binary_header flash = some hdr)
    (hbin : leWordAt flash (hdr + 8) < 4294967296)
    (hsane : hdr + 16 ≤ 8192 + leWordAt flash (hdr + 8)) :
    (crc32 0 (byteRange flash 8192 hdr ++
        byteRange flash (hdr + 16) (8192 + leWordAt flash (hdr + 8))) =
          leWordAt flash (hdr + 12) →
      run_Application flash afirst =
        .launch (leWordAt flash 8192) (leWordAt flash 8196)) ∧
    (crc32 0 (byteRange flash 8192 hdr ++
        byteRange flash (hdr + 16) (8192 + leWordAt flash (hdr + 8))) ≠
          leWordAt flash (hdr + 12) →
      afirst = true → run_Application flash afirst = .bankSwap) ∧
    (crc32 0 (byteRange flash 8192 hdr ++
        byteRange flash (hdr + 16) (8192 + leWordAt flash (hdr + 8))) ≠
          leWordAt flash (hdr + 12) →
      afirst = false → run_Application flash afirst = .enterBootloader) := by
  obtain ⟨hlo, hhi⟩ := find_binary_header_bounds flash hdr hfind
  have hlen : (8192 + leWordAt flash (hdr + 8) + 4294967296 - (hdr + 16)) %
      4294967296 = (8192 + leWordAt flash (hdr + 8)) - (hdr + 16) := by omega
  have hseg : byteSeq flash (hdr + 16)
      ((8192 + leWordAt flash (hdr + 8) + 4294967296 - (hdr + 16)) % 4294967296) =
      byteRange flash (hdr + 16) (8192 + leWordAt flash (hdr + 8)) := by
    rw [hlen]; rfl
  simp only [run_Application, hfind, if_neg hmsp]
  rw [hseg, crc32_append_eq]
  refine ⟨?_, ?_, ?_⟩
  · intro heq
    rw [if_neg (by simpa using heq)]
  · intro hne ha
    subst ha
    rw [if_pos hne, if_pos rfl]
  · intro hne ha
    subst ha
    rw [if_pos hne, if_neg (by simp)]

/-- A flash image whose descriptor sits at `APP_START_ADDRESS` itself:
signatures `0xAA55FADE, 0x55AAC0DE`, `bin_size = 16` and stored
`crc32 = 0` — the CRC32 of the image with its 16 descriptor bytes
removed, i.e. of the empty byte string. -/
def c1flash : Nat → Nat := fun a =>
  if a = 8192 then 0xDE else if a = 8193 then 0xFA else if a = 8194 then 0x55
  else if a = 8195 then 0xAA else if a = 8196 then 0xDE else if a = 8197 then 0xC0
  else if a = 8198 then 0xAA else if a = 8199 then 0x55
  else if a = 8200 then 16 else 0

set_option maxRecDepth 100000 in
/-- Witness for C1: on the concrete valid image the Boot Decider launches
with the MSP and reset vector read from the first two words of the
application region. -/
theorem boot_decision_witness :
    run_Application c1flash true =
      BootOutcome.launch 0xAA55FADE 0x55AAC0DE :=
  (boot_decision c1flash true 8192 (by decide) (by decide) (by decide)
    (by decide)).1 (by decide)

/-!
## Claim C10 — receiver write bounds

The input buffer `input_buffer[WORDS(OFFSET_SIZE + DATA_SIZE)]` holds
`4 + 8192 = 8196` bytes, so its byte overlay has valid indices
`0, …, 8195`. The receiver writes in-bounds exactly when every declared
payload size latched from a header is at most 8196; a declared size of
8197 drives a store to byte index 8196, one past the end.
-/

/-- `command_task` never touches the receiver's `ptr`, `size` or
`header_received`, and (unless the device reset) leaves the
pending-packet flag cleared. -/
lemma command_task_preserves_rx (s : BLState) (hw : Nat) :
    (command_task s hw).state.ptr = s.ptr ∧
    (command_task s hw).state.size = s.size ∧
    (command_task s hw).state.headerReceived = s.headerReceived ∧
    ((command_task s hw).halted = false →
      (command_task s hw).state.packetReceived = false) := by
  simp only [command_task]
  split_ifs <;> simp

/-- Receiver invariant of the main loop: unless the device has reset, no
packet is pending between loop turns, the header write position stays
below `HEADER_SIZE = 9`, and during payload collection the write position
stays at most `size`, which (given the size-hypothesis on latched
headers) is at most 8196. -/
def RxInv (st : SysState) : Prop :=
  st.halted = true ∨
  (st.bl.packetReceived = false ∧
   (st.bl.headerReceived = false → st.bl.ptr < 9) ∧
   (st.bl.headerReceived = true → st.bl.ptr ≤ st.bl.size ∧ st.bl.size ≤ 8196))

/-- Processing a completed packet from a just-reset receiver state keeps
the invariant. -/
lemma sys_after_command (s : BLState) (hw : Nat)
    (hhr : s.headerReceived = false) (hptr : s.ptr < 9) :
    RxInv ⟨(command_task s hw).state, (command_task s hw).halted⟩ := by
  cases hch : (command_task s hw).halted
  case false =>
    refine Or.inr ⟨(command_task_preserves_rx s hw).2.2.2 hch, ?_, ?_⟩
    · intro _
      rw [(command_task_preserves_rx s hw).1]
      exact hptr
    · intro htr
      rw [(command_task_preserves_rx s hw).2.2.1, hhr] at htr
      exact absurd htr (by simp)
  case true =>
    exact Or.inl rfl

set_option maxHeartbeats 1000000 in
/-- One main-loop turn (without a tick expiry) preserves the receiver
invariant, and every buffer store it performs is below index 8196,
provided the size it latches (if any) is at most 8196. -/
lemma driveByte_inv (st : SysState) (b : Nat) (hInv : RxInv st)
    (hl : ∀ sz ∈ (driveByte st b false).2.2.toList, sz ≤ 8196) :
    RxInv (driveByte st b false).1 ∧
    ∀ i ∈ (driveByte st b false).2.1.toList, i < 8196 := by
  cases hHalt : st.halted
  case true =>
    refine ⟨?_, ?_⟩ <;> simp [driveByte, hHalt, RxInv]
  case false =>
    rcases hInv with hH | ⟨hP, h0, h1⟩
    · rw [hHalt] at hH
      exact absurd hH (by simp)
    · cases hh : st.bl.headerReceived
      case false =>
        have hp9 := h0 hh
        simp only [driveByte, input_task, hP, hh, hHalt, Bool.false_eq_true,
          if_false, reduceIte] at hl ⊢
        split_ifs at hl ⊢
        all_goals refine ⟨Or.inr ⟨?_, ?_, ?_⟩, ?_⟩
        all_goals simp_all
        all_goals omega
      case true =>
        obtain ⟨hps1, hps2⟩ := h1 hh
        simp only [driveByte, input_task, hP, hh, hHalt, Bool.false_eq_true,
          if_false, reduceIte] at hl ⊢
        split_ifs at hl ⊢
        all_goals first
          | exact ⟨sys_after_command _ 0 rfl (by simp),
              by simp_all <;> try omega⟩
          | (refine ⟨Or.inr ⟨?_, ?_, ?_⟩, ?_⟩ <;> simp_all <;> try omega)

/-- Over any timeout-free byte stream from an invariant state, if every
latched payload size is at most 8196 then every buffer store stays below
index 8196. -/
lemma runBytes_safe (l : List Nat) : ∀ (st : SysState), RxInv st →
    (∀ sz ∈ (runBytes st (noTimeout l)).2.2, sz ≤ 8196) →
    (∀ i ∈ (runBytes st (noTimeout l)).2.1, i < 8196) := by
  induction l with
  | nil =>
    intro st _ _ i hi
    simp [runBytes, noTimeout] at hi
  | cons b rest ih =>
    intro st hInv hl
    simp only [noTimeout, List.map_cons, runBytes] at hl ⊢
    have hl1 : ∀ sz ∈ (driveByte st b false).2.2.toList, sz ≤ 8196 :=
      fun sz hsz => hl sz (List.mem_append_left _ hsz)
    obtain ⟨hInv2, hwr⟩ := driveByte_inv st b hInv hl1
    intro i hi
    rcases List.mem_append.mp hi with h | h
    · exact hwr i h
    · exact ih (driveByte st b false).1 hInv2
        (fun sz hsz => hl sz (List.mem_append_right _ hsz)) i h

/-- Running the loop over a concatenated input runs the two pieces in
sequence and concatenates their event lists. -/
lemma runBytes_append (xs ys : List (Nat × Bool)) : ∀ (st : SysState),
    (runBytes st (xs ++ ys)).1 = (runBytes (runBytes st xs).1 ys).1 ∧
    (runBytes st (xs ++ ys)).2.1 =
      (runBytes st xs).2.1 ++ (runBytes (runBytes st xs).1 ys).2.1 ∧
    (runBytes st (xs ++ ys)).2.2 =
      (runBytes st xs).2.2 ++ (runBytes (runBytes st xs).1 ys).2.2 := by
  induction xs with
  | nil =>
    intro st
    simp [runBytes]
  | cons p rest ih =>
    intro st
    cases p with
    | mk b t =>
      obtain ⟨i1, i2, i3⟩ := ih (driveByte st b t).1
      simp [runBytes, i1, i2, i3]

/-- Feeding `n` zero bytes to a receiver that is `p` bytes into a
payload of declared size at least `p + n` stores them at the
consecutive indices `p, p+1, …, p+n−1` and latches no size. -/
lemma runBytes_payload (n : Nat) : ∀ (st : SysState) (p : Nat),
    st.halted = false → st.bl.packetReceived = false →
    st.bl.headerReceived = true → st.bl.ptr = p →
    p + n ≤ st.bl.size →
    (runBytes st (noTimeout (List.replicate n 0))).2.1 = List.range' p n ∧
    (runBytes st (noTimeout (List.replicate n 0))).2.2 = [] := by
  induction n with
  | zero =>
    intro st p _ _ _ _ _
    simp [runBytes, noTimeout]
  | succ n ih =>
    intro st p hH hP hhr hptr hsz
    simp only [List.replicate_succ, noTimeout, List.map_cons, runBytes,
      driveByte, input_task, hH, hP, hhr, hptr, Bool.false_eq_true, if_false,
      reduceIte]
    have hlt : p < st.bl.size := by omega
    rw [if_pos hlt]
    by_cases hc : p + 1 = st.bl.size
    · rw [if_pos hc]
      have hn : n = 0 := by omega
      subst hn
      simp [runBytes, noTimeout, List.range'_one, hlt]
    · rw [if_neg hc]
      have hstep := ih ⟨⟨p + 1, st.bl.size, true, setByte st.bl.buf p 0,
          st.bl.inputCommand, false, st.bl.unlockBegin, st.bl.unlockEnd,
          st.bl.flashAddr, st.bl.flashData, st.bl.flashDataReady⟩, false⟩
        (p + 1) rfl rfl rfl rfl (show p + 1 + n ≤ st.bl.size by omega)
      rw [List.range'_succ]
      have h1 := hstep.1
      have h2 := hstep.2
      simp only [noTimeout, List.map_replicate] at h1 h2
      constructor
      · simp [hlt, h1]
      · simp [hlt, h2]

/-- The 9-byte header of a packet with a good guard, declared payload
size 8197 (one more than the buffer's 8196 bytes) and command DATA. -/
def oobHeader : List Nat := [0x4D, 0x43, 0x48, 0x50, 0x05, 0x20, 0x00, 0x00, 0xA1]

/-- The header above followed by its 8197 payload bytes. -/
def oobStream : List Nat := oobHeader ++ List.replicate 8197 0

/-- Claim C10: starting from reset and with no tick expiry, if every
declared payload size latched during the run is at most the buffer
capacity of 8196 bytes, every byte the receiver writes lands at an
index below 8196 — and there is a stream declaring size 8197 whose run
latches exactly that size and stores a byte at index 8196, one past the
end of the buffer. In-bounds writing holds exactly under the capacity
precondition. -/
theorem payload_bounds_exact :
    (∀ bytes : List Nat,
        (∀ sz ∈ (runBytes initSys (noTimeout bytes)).2.2, sz ≤ 8196) →
        ∀ i ∈ (runBytes initSys (noTimeout bytes)).2.1, i < 8196) ∧
    (∃ bytes : List Nat,
        (runBytes initSys (noTimeout bytes)).2.2 = [8197] ∧
        8196 ∈ (runBytes initSys (noTimeout bytes)).2.1) := by
  constructor
  · intro bytes h
    exact runBytes_safe bytes initSys
      (Or.inr ⟨rfl, fun _ => by decide, fun hcon => absurd hcon (by decide)⟩) h
  · have hnt : noTimeout oobStream =
        noTimeout oobHeader ++ noTimeout (List.replicate 8197 0) := by
      unfold oobStream noTimeout
      exact List.map_append _ _ _
    obtain ⟨e1, e2, e3⟩ :=
      runBytes_append (noTimeout oobHeader) (noTimeout (List.replicate 8197 0))
        initSys
    have hpay := runBytes_payload 8197 (runBytes initSys (noTimeout oobHeader)).1
      0 (by decide) (by decide) (by decide) (by decide) (by decide)
    have hhdrW : (runBytes initSys (noTimeout oobHeader)).2.1 =
        [0, 1, 2, 3, 4, 5, 6, 7, 8] := by decide
    have hhdrL : (runBytes initSys (noTimeout oobHeader)).2.2 = [8197] := by
      decide
    refine ⟨oobStream, ?_, ?_⟩
    · rw [hnt, e3, hhdrL, hpay.2]
      rfl
    · rw [hnt, e2, hhdrW, hpay.1]
      exact List.mem_append_right _ (List.mem_range'_1.mpr ⟨by omega, by omega⟩)

/-- Witness for C10: on a concrete short stream (which latches no size,
so the capacity precondition holds) every receiver store is in bounds. -/
theorem payload_bounds_exact_witness :
    ∀ i ∈ (runBytes initSys (noTimeout [1, 2, 3])).2.1, i < 8196 :=
  payload_bounds_exact.1 [1, 2, 3] (by decide)
